import Mathlib

set_option autoImplicit false

namespace PDM

/-!
Shallow embedding of the authentication / realm-configuration core of the
proxmox-datacenter-manager repository.

Part 1: the login protocol (`src/api/proxmox-login/src/lib.rs`).
The ticket codec, the TFA challenge descriptor and the `api` request/response
types live in modules of the `proxmox-login` crate that are not part of the
source tree here; they are modelled from the spec where noted.
-/

/-- Modelled from the spec: a parsed ticket decomposes into `product`, `userid`,
`timestamp` and a signature portion (spec §3, §4.1); the codec module
`ticket.rs` is outside the available sources. -/
structure Ticket where
  product : String
  userid : String
  timestamp : Int
  signature : String
deriving DecidableEq

/-- Modelled from the spec: lossless formatting of a ticket (spec §4.1);
the exact wire grammar is out of scope, delimited fields suffice. -/
def Ticket.format (t : Ticket) : String :=
  t.product ++ ":" ++ t.userid ++ ":" ++ toString t.timestamp ++ "::" ++ t.signature

/-- Modelled from the spec: structural ticket parse (spec §4.1); the codec
module `ticket.rs` is outside the available sources. -/
def Ticket.parse (raw : String) : Except String Ticket :=
  match raw.splitOn ":" with
  | [product, userid, timestamp, "", signature] =>
      match timestamp.toInt? with
      | some ts => .ok ⟨product, userid, ts, signature⟩
      | none => .error "malformed ticket"
  | _ => .error "invalid ticket"

/-- Modelled from the spec: `TfaChallenge` describes which second-factor
methods are available — boolean flags for TOTP and Yubico OTP, an availability
predicate for recovery codes, and an optional WebAuthn payload (spec §3);
the module `tfa.rs` is outside the available sources. -/
structure TfaChallenge where
  totp : Bool
  yubico : Bool
  recovery : List Nat
  webauthn : Option String
deriving DecidableEq

/-- Modelled from the spec: the recovery-code availability predicate
(spec §3 / §4.3): recovery codes are available iff some remain. -/
def TfaChallenge.recoveryAvailable (c : TfaChallenge) : Bool :=
  !c.recovery.isEmpty

/-- Modelled from the spec: the `CreateTicket` request body — JSON object with
`username`, `password`, optional `new-format: true`, optional
`tfa-challenge` (spec §6); `api.rs` is outside the available sources. -/
structure CreateTicket where
  new_format : Option Bool
  username : String
  password : String
  tfa_challenge : Option String
deriving DecidableEq

def jsonStr (s : String) : String := "\"" ++ s ++ "\""

/-- Modelled from the spec: JSON serialization of the request body (spec §6);
string escaping is out of scope. -/
def CreateTicket.toJson (t : CreateTicket) : String :=
  "\x7b" ++ jsonStr "username" ++ ":" ++ jsonStr t.username
    ++ "," ++ jsonStr "password" ++ ":" ++ jsonStr t.password
    ++ (match t.new_format with
        | some b => "," ++ jsonStr "new-format" ++ ":" ++ (if b then "true" else "false")
        | none => "")
    ++ (match t.tfa_challenge with
        | some c => "," ++ jsonStr "tfa-challenge" ++ ":" ++ jsonStr c
        | none => "")
    ++ "\x7d"

/-- `Request` from `lib.rs`: method, url, content type, content length, body. -/
structure Request where
  method : String
  url : String
  content_type : String
  content_length : Nat
  body : String
deriving DecidableEq

/-- `normalize_url` from `lib.rs` lines 59-62: truncate to the length of the
string with trailing slash characters removed (computed structurally on the
character list). -/
def normalize_url (api_url : String) : String :=
  String.mk ((api_url.data.reverse.dropWhile (fun ch => ch == '/')).reverse)

/-- `Login` request builder from `lib.rs`. -/
structure Login where
  api_url : String
  userid : String
  password : String
  pve_compat : Bool
deriving DecidableEq

/-- `Login::renew_ticket` from `lib.rs` lines 76-83. -/
def Login.renew_ticket (api_url : String) (ticket : Ticket) : Login :=
  { api_url := normalize_url api_url
    pve_compat := ticket.product == "PVE"
    userid := ticket.userid
    password := ticket.format }

/-- `Login::renew` from `lib.rs` lines 66-68. -/
def Login.renew (api_url : String) (ticket : String) : Except String Login :=
  (Ticket.parse ticket).map (Login.renew_ticket api_url)

/-- `Login::new` from `lib.rs` lines 86-93. -/
def Login.new (api_url : String) (userid : String) (password : String) : Login :=
  { api_url := normalize_url api_url
    userid := userid
    password := password
    pve_compat := false }

/-- `Login::set_url` from `lib.rs` lines 71-73: stores the argument verbatim. -/
def Login.set_url (l : Login) (api_url : String) : Login :=
  { l with api_url := api_url }

/-- `Login::pve_compatibility` from `lib.rs` lines 96-99. -/
def Login.pve_compatibility (l : Login) (compatibility : Bool) : Login :=
  { l with pve_compat := compatibility }

/-- `Login::request` from `lib.rs` lines 106-123. -/
def Login.request (l : Login) : Request :=
  let t : CreateTicket :=
    { new_format := if l.pve_compat then some true else none
      username := l.userid
      password := l.password
      tfa_challenge := none }
  let body := t.toJson
  { method := "POST"
    url := l.api_url ++ "/api2/json/access/ticket"
    content_type := "application/json"
    content_length := body.length
    body := body }

/-- Modelled from the spec: the inbound response envelope `data` payload —
`username`, optional `ticket`, optional `CSRFPreventionToken`, optional
`clustername` (spec §6); `api.rs` is outside the available sources. -/
structure CreateTicketResponse where
  username : String
  ticket : Option String
  csrfprevention_token : Option String
  clustername : Option String
deriving DecidableEq

/-- Modelled from the spec: the inbound response envelope, a JSON object with
a `data` field whose absence is an error (spec §6). -/
structure ApiResponse where
  data : Option CreateTicketResponse
deriving DecidableEq

/-- Modelled from the spec / `lib.rs` usage: a response ticket string parses
either into a full ticket or into a (partial ticket, TFA challenge) pair
(spec §4.2); `ticket.rs` is outside the available sources. -/
inductive TicketResponse where
  | full (t : Ticket)
  | tfa (ticket : String) (challenge : TfaChallenge)
deriving DecidableEq

/-- `Authentication` (spec §3, `ticket.rs` fields as used by `lib.rs`). -/
structure Authentication where
  ticket : Ticket
  csrfprevention_token : String
  clustername : Option String
  api_url : String
  userid : String
deriving DecidableEq

/-- `SecondFactorChallenge` from `lib.rs` lines 195-201. -/
structure SecondFactorChallenge where
  api_url : String
  pve_compat : Bool
  userid : String
  ticket : String
  challenge : TfaChallenge
deriving DecidableEq

/-- `TicketResult` from `lib.rs` lines 177-183. -/
inductive TicketResult where
  | full (a : Authentication)
  | tfaRequired (c : SecondFactorChallenge)
deriving DecidableEq

/-- `Login::response` from `lib.rs` lines 129-170, over an already
deserialized envelope; `parseTicketResponse` stands for the out-of-source
ticket-string parser so every statement holds for an arbitrary codec. -/
def Login.response (parseTicketResponse : String → Except String TicketResponse)
    (l : Login) (body : ApiResponse) : Except String TicketResult :=
  match body.data with
  | none => .error "missing response data"
  | some response =>
    if response.username ≠ l.userid then
      .error "ticket response contained unexpected userid"
    else
      match response.ticket with
      | none => .error "missing ticket"
      | some raw =>
        match parseTicketResponse raw with
        | .error e => .error e
        | .ok (.full ticket) =>
          if ticket.userid ≠ l.userid then
            .error "returned ticket contained unexpected userid"
          else
            match response.csrfprevention_token with
            | none => .error "missing CSRFPreventionToken in ticket response"
            | some tok =>
              .ok (.full
                { csrfprevention_token := tok
                  clustername := response.clustername
                  api_url := l.api_url
                  userid := response.username
                  ticket := ticket })
        | .ok (.tfa ticket challenge) =>
          .ok (.tfaRequired
            { api_url := l.api_url
              pve_compat := l.pve_compat
              userid := response.username
              ticket := ticket
              challenge := challenge })

/-- `TfaError` from `error.rs` as used by `lib.rs`: the unavailable error. -/
inductive TfaError where
  | unavailable
deriving DecidableEq

/-- `SecondFactorChallenge::respond_raw` from `lib.rs` lines 252-270. -/
def SecondFactorChallenge.respond_raw (c : SecondFactorChallenge) (data : String) : Request :=
  let t : CreateTicket :=
    { new_format := if c.pve_compat then some true else none
      username := c.userid
      password := data
      tfa_challenge := some c.ticket }
  let body := t.toJson
  { method := "POST"
    url := c.api_url ++ "/api2/json/access/ticket"
    content_type := "application/json"
    content_length := body.length
    body := body }

/-- `SecondFactorChallenge::respond_yubico` from `lib.rs` lines 207-213. -/
def SecondFactorChallenge.respond_yubico (c : SecondFactorChallenge) (code : String) :
    Except TfaError Request :=
  if !c.challenge.yubico then .error .unavailable
  else .ok (c.respond_raw ("yubico:" ++ code))

/-- `SecondFactorChallenge::respond_totp` from `lib.rs` lines 218-224. -/
def SecondFactorChallenge.respond_totp (c : SecondFactorChallenge) (code : String) :
    Except TfaError Request :=
  if !c.challenge.totp then .error .unavailable
  else .ok (c.respond_raw ("totp:" ++ code))

/-- `SecondFactorChallenge::respond_recovery` from `lib.rs` lines 229-235. -/
def SecondFactorChallenge.respond_recovery (c : SecondFactorChallenge) (code : String) :
    Except TfaError Request :=
  if !c.challenge.recoveryAvailable then .error .unavailable
  else .ok (c.respond_raw ("recovery:" ++ code))

/-- `SecondFactorChallenge::response` from `lib.rs` lines 273-296, over an
already deserialized envelope; `parseTicket` stands for the out-of-source
ticket-string parser. -/
def SecondFactorChallenge.response (parseTicket : String → Except String Ticket)
    (c : SecondFactorChallenge) (body : ApiResponse) : Except String Authentication :=
  match body.data with
  | none => .error "missing response data"
  | some response =>
    if response.username ≠ c.userid then
      .error "ticket response contained unexpected userid"
    else
      match response.ticket with
      | none => .error "no ticket in response"
      | some raw =>
        match parseTicket raw with
        | .error e => .error e
        | .ok ticket =>
          if ticket.userid ≠ c.userid then
            .error "returned ticket contained unexpected userid"
          else
            match response.csrfprevention_token with
            | none => .error "missing CSRFPreventionToken in ticket response"
            | some tok =>
              .ok
                { ticket := ticket
                  csrfprevention_token := tok
                  clustername := response.clustername
                  userid := response.username
                  api_url := c.api_url }

/-!
Part 2: the realm configuration store
(`src/server/src/api/config/access/ldap.rs`).  The file store and its
collaborators (`pdm_config::domains` lookup / set_data / unset_default_realm,
`ConfigDigest::detect_modification`, the bind-password secret store) are not
under the available sources and are modelled from the spec where noted; the
handlers themselves follow `ldap.rs` line by line.
-/

/-- `str::trim` modelled structurally: remove leading and trailing
whitespace characters (computed on the character list so it evaluates). -/
def trimChars (s : String) : String :=
  String.mk
    (((s.data.dropWhile Char.isWhitespace).reverse.dropWhile
      Char.isWhitespace).reverse)

/-- Association-list lookup, modelling `HashMap::get`. -/
def alLookup {α : Type} (l : List (String × α)) (k : String) : Option α :=
  match l with
  | [] => none
  | (k1, v) :: t => if k1 = k then some v else alLookup t k

/-- Association-list insert-or-replace, modelling `HashMap::insert` (replaces
in place, appends new keys; for unique-key lists this is the map update). -/
def alInsert {α : Type} (l : List (String × α)) (k : String) (v : α) :
    List (String × α) :=
  match l with
  | [] => [(k, v)]
  | (k1, v1) :: t => if k1 = k then (k, v) :: t else (k1, v1) :: alInsert t k v

/-- Association-list removal, modelling `HashMap::remove`. -/
def alRemove {α : Type} (l : List (String × α)) (k : String) : List (String × α) :=
  match l with
  | [] => []
  | (k1, v1) :: t => if k1 = k then t else (k1, v1) :: alRemove t k

/-- `LdapRealmConfig` (`proxmox_ldap::types`, fields as used by `ldap.rs`). -/
structure LdapRealmConfig where
  realm : String
  server1 : String
  server2 : Option String
  port : Option Nat
  base_dn : String
  user_attr : String
  comment : Option String
  default : Option Bool
  mode : Option String
  verify : Option Bool
  bind_dn : Option String
  filter : Option String
  sync_defaults_options : Option String
  sync_attributes : Option String
  user_classes : Option String
deriving DecidableEq

/-- `LdapRealmConfigUpdater` (`proxmox_ldap::types`, fields as used by
`ldap.rs`): every updatable field optional. -/
structure LdapRealmConfigUpdater where
  server1 : Option String
  server2 : Option String
  port : Option Nat
  base_dn : Option String
  user_attr : Option String
  comment : Option String
  default : Option Bool
  mode : Option String
  verify : Option Bool
  bind_dn : Option String
  filter : Option String
  sync_defaults_options : Option String
  sync_attributes : Option String
  user_classes : Option String
deriving DecidableEq

/-- The updater touching no field at all. -/
def emptyUpdater : LdapRealmConfigUpdater :=
  ⟨none, none, none, none, none, none, none, none, none, none, none, none, none, none⟩

/-- `DeletableProperty` from `ldap.rs` lines 163-188. -/
inductive DeletableProperty where
  | server2
  | port
  | comment
  | default
  | verify
  | mode
  | bind_dn
  | password
  | filter
  | sync_defaults_options
  | sync_attributes
  | user_classes
deriving DecidableEq

/-- Errors surfaced by the realm store handlers (spec §7 taxonomy): parameter
errors (`param_bail`), digest conflicts, not-found (`http_bail!(NOT_FOUND)`),
failed connection checks. -/
inductive ApiError where
  | param (msg : String)
  | conflict
  | notFound (msg : String)
  | connection (msg : String)
deriving DecidableEq

/-- Modelled from the spec: the digest is a content hash used purely for
equality comparison (spec §3), modelled injectively by the content itself;
`proxmox_config_digest` is outside the available sources. -/
abbrev ConfigDigest := List (String × LdapRealmConfig)

/-- Modelled from the spec: `ConfigDigest::detect_modification` — if the
caller supplied an expected digest, a mismatch with the current digest is a
conflict error (spec §4.5 step 3). -/
def detect_modification (current : ConfigDigest) (given : Option ConfigDigest) :
    Option ApiError :=
  match given with
  | none => none
  | some d => if d = current then none else some .conflict

/-- System state threaded through the handlers: the on-disk realm section
file (typed view, `ldap.rs` only handles `"ldap"` sections) and the external
bind-password secret store. -/
structure SysState where
  file : List (String × LdapRealmConfig)
  secrets : List (String × String)
deriving DecidableEq

/-- Modelled from the spec: storing a bind password in the external secret
store (`crate::auth::ldap` is outside the available sources). -/
def store_ldap_bind_password (secrets : List (String × String)) (realm : String)
    (pw : String) : List (String × String) :=
  alInsert secrets realm pw

/-- Modelled from the spec: removing a stored bind password. -/
def remove_ldap_bind_password (secrets : List (String × String)) (realm : String) :
    List (String × String) :=
  alRemove secrets realm

/-- Modelled from the spec: `domains::unset_default_realm` clears the
`default` flag on every record in the same pass (spec §4.5 step 5). -/
def unset_default_realm (domains : List (String × LdapRealmConfig)) :
    List (String × LdapRealmConfig) :=
  domains.map (fun p => (p.1, { p.2 with default := none }))

/-- `create_ldap_realm` from `ldap.rs` lines 63-89.  `checkOk` is the outcome
of the out-of-band LDAP connection check (external collaborator); the lock
acquisition and the final `save_config` are the state transitions.  Returns
the state after the operation and `none` on success. -/
def create_ldap_realm (checkOk : Bool) (config : LdapRealmConfig)
    (password : Option String) (st : SysState) : SysState × Option ApiError :=
  if (alLookup st.file config.realm).isSome then
    (st, some (.param "realm already exists"))
  else if !checkOk then
    (st, some (.connection "connection check failed"))
  else
    let secrets :=
      match password with
      | some pw => store_ldap_bind_password st.secrets config.realm pw
      | none => st.secrets
    let domains :=
      if config.default = some true then unset_default_realm st.file else st.file
    let domains := alInsert domains config.realm config
    ({ file := domains, secrets := secrets }, none)

/-- `delete_ldap_realm` from `ldap.rs` lines 109-130: digest check, remove
the section (not-found if absent), save, then best-effort removal of the
stored bind password (its failure is only logged). -/
def delete_ldap_realm (realm : String) (digest : Option ConfigDigest)
    (st : SysState) : SysState × Option ApiError :=
  match detect_modification st.file digest with
  | some e => (st, some e)
  | none =>
    if (alLookup st.file realm).isNone then
      (st, some (.notFound "realm does not exist"))
    else
      ({ file := alRemove st.file realm
         secrets := remove_ldap_bind_password st.secrets realm }, none)

/-- The delete-list loop of `update_ldap_realm` (`ldap.rs` lines 240-281):
each listed property is reset on the working copy; `Password` removes the
stored bind password from the external secret store immediately. -/
def applyDelete (realm : String) (config : LdapRealmConfig)
    (secrets : List (String × String)) :
    List DeletableProperty → LdapRealmConfig × List (String × String)
  | [] => (config, secrets)
  | .server2 :: rest => applyDelete realm { config with server2 := none } secrets rest
  | .comment :: rest => applyDelete realm { config with comment := none } secrets rest
  | .default :: rest => applyDelete realm { config with default := none } secrets rest
  | .port :: rest => applyDelete realm { config with port := none } secrets rest
  | .verify :: rest => applyDelete realm { config with verify := none } secrets rest
  | .mode :: rest => applyDelete realm { config with mode := none } secrets rest
  | .bind_dn :: rest => applyDelete realm { config with bind_dn := none } secrets rest
  | .password :: rest =>
      applyDelete realm config (remove_ldap_bind_password secrets realm) rest
  | .filter :: rest => applyDelete realm { config with filter := none } secrets rest
  | .sync_defaults_options :: rest =>
      applyDelete realm { config with sync_defaults_options := none } secrets rest
  | .sync_attributes :: rest =>
      applyDelete realm { config with sync_attributes := none } secrets rest
  | .user_classes :: rest =>
      applyDelete realm { config with user_classes := none } secrets rest

/-- Field application of `update_ldap_realm` before the `default` handling
(`ldap.rs` lines 283-310): server1, server2, port, base_dn, user_attr and the
trimmed comment (an empty trimmed comment clears the field). -/
def applyUpdatePre (update : LdapRealmConfigUpdater) (config : LdapRealmConfig) :
    LdapRealmConfig :=
  let config :=
    match update.server1 with
    | some v => { config with server1 := v }
    | none => config
  let config :=
    match update.server2 with
    | some v => { config with server2 := some v }
    | none => config
  let config :=
    match update.port with
    | some v => { config with port := some v }
    | none => config
  let config :=
    match update.base_dn with
    | some v => { config with base_dn := v }
    | none => config
  let config :=
    match update.user_attr with
    | some v => { config with user_attr := v }
    | none => config
  match update.comment with
  | some c =>
    let c := trimChars c
    if c = "" then { config with comment := none } else { config with comment := some c }
  | none => config

/-- Field application of `update_ldap_realm` after the `default` handling
(`ldap.rs` lines 319-342): mode, verify, bind_dn, filter and the sync
options. -/
def applyUpdatePost (update : LdapRealmConfigUpdater) (config : LdapRealmConfig) :
    LdapRealmConfig :=
  let config :=
    match update.mode with
    | some v => { config with mode := some v }
    | none => config
  let config :=
    match update.verify with
    | some v => { config with verify := some v }
    | none => config
  let config :=
    match update.bind_dn with
    | some v => { config with bind_dn := some v }
    | none => config
  let config :=
    match update.filter with
    | some v => { config with filter := some v }
    | none => config
  let config :=
    match update.sync_defaults_options with
    | some v => { config with sync_defaults_options := some v }
    | none => config
  let config :=
    match update.sync_attributes with
    | some v => { config with sync_attributes := some v }
    | none => config
  match update.user_classes with
  | some v => { config with user_classes := some v }
  | none => config

/-- `update_ldap_realm` from `ldap.rs` lines 225-362: digest check, typed
lookup, the delete-list loop, field application in source order (with the
`default` handling of lines 312-317 between `applyUpdatePre` and
`applyUpdatePost`), the connection check, password storage, `set_data` and
`save_config`. -/
def update_ldap_realm (checkOk : Bool) (realm : String)
    (update : LdapRealmConfigUpdater) (password : Option String)
    (delete : Option (List DeletableProperty)) (digest : Option ConfigDigest)
    (st : SysState) : SysState × Option ApiError :=
  match detect_modification st.file digest with
  | some e => (st, some e)
  | none =>
    match alLookup st.file realm with
    | none => (st, some (.notFound "realm does not exist"))
    | some config =>
      let ds :=
        match delete with
        | some props => applyDelete realm config st.secrets props
        | none => (config, st.secrets)
      let config := ds.1
      let secrets := ds.2
      let config := applyUpdatePre update config
      let domains :=
        if update.default = some true then unset_default_realm st.file else st.file
      let config :=
        if update.default = some true then { config with default := some true }
        else { config with default := none }
      let config := applyUpdatePost update config
      if !checkOk then
        ({ file := st.file, secrets := secrets }, some (.connection "connection check failed"))
      else
        let secrets :=
          match password with
          | some pw => store_ldap_bind_password secrets realm pw
          | none => secrets
        let domains := alInsert domains realm config
        ({ file := domains, secrets := secrets }, none)

/-- The realms carrying `default = true`, in file order. -/
def defaultIds (file : List (String × LdapRealmConfig)) : List String :=
  (file.filter (fun p => p.2.default == some true)).map Prod.fst

/-!
Part 3: the typed section overlay
(`src/api/pdm-config/src/section_config.rs`).  The generic `T` is
instantiated with the closed realm-record variant set registered for
`domains.cfg` (spec §9: model the trait object as a closed tagged union);
the untyped per-section value of the raw grammar is a flat record.
-/

/-- Untyped per-section value of the raw section grammar (key/value record);
the grammar itself is an external collaborator (spec §1). -/
abbrev RawValue := List (String × String)

/-- Closed realm-record variant set instantiating the generic overlay,
externally tagged (the default `INTERNALLY_TAGGED = None`,
`section_config.rs` line 16); `domains.rs` registers the realm plugins. -/
inductive DomainRecord where
  | ldap (v : RawValue)
  | openid (v : RawValue)
deriving DecidableEq

/-- `ApiSectionDataEntry::section_type`: maps a variant to its type name. -/
def DomainRecord.section_type : DomainRecord → String
  | .ldap _ => "ldap"
  | .openid _ => "openid"

/-- `ApiSectionDataEntry::from_value` (`section_config.rs` lines 24-44) at
the externally tagged instantiation: deserializing the single-key object
`(ty, value)` picks the variant named `ty` and fails for unknown tags. -/
def DomainRecord.from_value (ty : String) (value : RawValue) :
    Except String DomainRecord :=
  if ty = "ldap" then .ok (.ldap value)
  else if ty = "openid" then .ok (.openid value)
  else .error "unknown section type"

/-- `ApiSectionDataEntry::to_pair`/`into_pair` (`section_config.rs` lines
48-62, 79-99) at the externally tagged instantiation: serializing the enum
yields a single-key object, decomposed into the (tag, value) pair; for this
closed variant set it always succeeds. -/
def DomainRecord.to_pair : DomainRecord → String × RawValue
  | .ldap v => ("ldap", v)
  | .openid v => ("openid", v)

/-- `RawSectionConfigData` (`proxmox_section_config`): untyped sections
`id -> (type, value)` (a hash map, modelled as a unique-key association
list) plus the file-order list. -/
structure RawSectionConfigData where
  sections : List (String × (String × RawValue))
  order : List String
deriving DecidableEq

/-- `SectionConfigData<T>` (`section_config.rs` lines 102-106) at the
`DomainRecord` instantiation. -/
structure SectionConfigData where
  sections : List (String × DomainRecord)
  order : List String
deriving DecidableEq

/-- The `try_fold` of `TryFrom<RawSectionConfigData>` (`section_config.rs`
lines 122-129): decode each entry with `from_value`, inserting into the
accumulating map; the first failure fails the whole conversion. -/
def sectionsFromRaw (l : List (String × (String × RawValue)))
    (acc : List (String × DomainRecord)) :
    Except String (List (String × DomainRecord)) :=
  match l with
  | [] => .ok acc
  | (id, (ty, v)) :: rest =>
    match DomainRecord.from_value ty v with
    | .error e => .error e
    | .ok t => sectionsFromRaw rest (alInsert acc id t)

/-- `TryFrom<RawSectionConfigData> for SectionConfigData<T>`
(`section_config.rs` lines 117-135): decode all sections, keep the order
list. -/
def tryFromRaw (data : RawSectionConfigData) : Except String SectionConfigData :=
  match sectionsFromRaw data.sections [] with
  | .error e => .error e
  | .ok sections => .ok { sections := sections, order := data.order }

/-- The `try_fold` of `TryFrom<SectionConfigData<T>>` (`section_config.rs`
lines 155-161): encode each entry with `into_pair` into the accumulating
map (total at this instantiation). -/
def sectionsToRaw (l : List (String × DomainRecord))
    (acc : List (String × (String × RawValue))) :
    List (String × (String × RawValue)) :=
  match l with
  | [] => acc
  | (id, t) :: rest => sectionsToRaw rest (alInsert acc id t.to_pair)

/-- `TryFrom<SectionConfigData<T>> for RawSectionConfigData`
(`section_config.rs` lines 151-168): encode all sections, keep the order
list. -/
def tryIntoRaw (data : SectionConfigData) : RawSectionConfigData :=
  { sections := sectionsToRaw data.sections [], order := data.order }

/-- `Iter::next` (`section_config.rs` lines 261-272) run to exhaustion: walk
the order list, look each id up in the (borrowed) sections map, silently
skipping ids absent from the map. -/
def iterList {α : Type} (sections : List (String × α)) :
    List String → List (String × α)
  | [] => []
  | id :: rest =>
    match alLookup sections id with
    | some v => (id, v) :: iterList sections rest
    | none => iterList sections rest

/-- `IntoIter::next` (`section_config.rs` lines 231-242) run to exhaustion:
walk the order list, removing each found id from the (owned) sections map,
silently skipping ids absent from the map. -/
def intoIterList {α : Type} (sections : List (String × α)) :
    List String → List (String × α)
  | [] => []
  | id :: rest =>
    match alLookup sections id with
    | some v => (id, v) :: intoIterList (alRemove sections id) rest
    | none => intoIterList sections rest

/-- A concrete realm record used by concrete instances of the theorems. -/
def sampleRealm : LdapRealmConfig :=
  ⟨"ldap1", "server.example", none, none, "dc=example,dc=com", "uid",
    some "old comment", none, none, none, none, none, none, none, none⟩

/-- A concrete realm record with the `default` flag set, under id `ldap1`. -/
def sampleRealmDefault : LdapRealmConfig :=
  { sampleRealm with default := some true }

/-- A second concrete realm record with the `default` flag set, id `ldap2`. -/
def sampleRealm2 : LdapRealmConfig :=
  { sampleRealm with realm := "ldap2", default := some true }

/-- Specification helper: decoding a raw section list entrywise, keeping
list order (the fold of `tryFromRaw` reduces to this on unique keys). -/
def decodeList : List (String × (String × RawValue)) →
    Except String (List (String × DomainRecord))
  | [] => .ok []
  | (id, (ty, v)) :: rest =>
    match DomainRecord.from_value ty v with
    | .error e => .error e
    | .ok t =>
      match decodeList rest with
      | .error e => .error e
      | .ok ds => .ok ((id, t) :: ds)

/-- Specification helper: encoding a typed section list entrywise. -/
def encodeList (l : List (String × DomainRecord)) :
    List (String × (String × RawValue)) :=
  l.map (fun p => (p.1, p.2.to_pair))

/-!
Helper lemmas shared by the claim theorems.
-/

theorem alLookup_alInsert_self {α : Type} (l : List (String × α)) (k : String) (v : α) :
    alLookup (alInsert l k v) k = some v := by
  induction l with
  | nil => simp [alInsert, alLookup]
  | cons p t ih =>
    obtain ⟨k1, v1⟩ := p
    by_cases hk : k1 = k <;> simp [alInsert, alLookup, hk, ih]

theorem alLookup_alRemove_ne {α : Type} (l : List (String × α)) (k k1 : String)
    (h : k1 ≠ k) : alLookup (alRemove l k) k1 = alLookup l k1 := by
  induction l with
  | nil => rfl
  | cons p t ih =>
    obtain ⟨k2, v2⟩ := p
    by_cases hk : k2 = k
    · subst hk
      have hne : k2 ≠ k1 := fun e => h e.symm
      simp [alRemove, alLookup, hne]
    · simp [alRemove, alLookup, hk, ih]

theorem alRemove_sublist {α : Type} (l : List (String × α)) (k : String) :
    (alRemove l k).Sublist l := by
  induction l with
  | nil => simp [alRemove]
  | cons p t ih =>
    obtain ⟨k1, v1⟩ := p
    by_cases hk : k1 = k
    · simp [alRemove, hk]
    · simpa [alRemove, hk] using ih

theorem alInsert_notMem {α : Type} (l : List (String × α)) (k : String) (v : α)
    (h : ¬ k ∈ l.map Prod.fst) : alInsert l k v = l ++ [(k, v)] := by
  induction l with
  | nil => rfl
  | cons p t ih =>
    obtain ⟨k1, v1⟩ := p
    simp only [List.map_cons, List.mem_cons] at h
    push_neg at h
    have hk : k1 ≠ k := fun e => h.1 e.symm
    simp [alInsert, hk, ih h.2]

theorem applyUpdatePost_default (u : LdapRealmConfigUpdater) (c : LdapRealmConfig) :
    (applyUpdatePost u c).default = c.default := by
  unfold applyUpdatePost
  cases u.mode <;> cases u.verify <;> cases u.bind_dn <;> cases u.filter <;>
    cases u.sync_defaults_options <;> cases u.sync_attributes <;>
    cases u.user_classes <;> rfl

theorem applyUpdatePost_comment (u : LdapRealmConfigUpdater) (c : LdapRealmConfig) :
    (applyUpdatePost u c).comment = c.comment := by
  unfold applyUpdatePost
  cases u.mode <;> cases u.verify <;> cases u.bind_dn <;> cases u.filter <;>
    cases u.sync_defaults_options <;> cases u.sync_attributes <;>
    cases u.user_classes <;> rfl

theorem applyUpdatePre_comment_set (u : LdapRealmConfigUpdater) (c : LdapRealmConfig)
    (s : String) (h : u.comment = some s) (hs : trimChars s ≠ "") :
    (applyUpdatePre u c).comment = some (trimChars s) := by
  unfold applyUpdatePre
  cases u.server1 <;> cases u.server2 <;> cases u.port <;> cases u.base_dn <;>
    cases u.user_attr <;> simp [h, hs]

theorem applyDelete_secrets_sublist (realm : String) (c : LdapRealmConfig)
    (s : List (String × String)) (props : List DeletableProperty) :
    ((applyDelete realm c s props).2).Sublist s := by
  induction props generalizing c s with
  | nil => simp [applyDelete]
  | cons p rest ih =>
    cases p <;> simp only [applyDelete] <;>
      first
        | exact ih _ _
        | exact (ih _ _).trans (alRemove_sublist s realm)

theorem applyDelete_secrets_other (realm : String) (c : LdapRealmConfig)
    (s : List (String × String)) (props : List DeletableProperty) (k : String)
    (hk : k ≠ realm) :
    alLookup (applyDelete realm c s props).2 k = alLookup s k := by
  induction props generalizing c s with
  | nil => simp [applyDelete]
  | cons p rest ih =>
    cases p <;> simp only [applyDelete] <;>
      first
        | exact ih _ _
        | exact (ih _ _).trans (alLookup_alRemove_ne s realm k hk)

theorem create_success_shape (ck : Bool) (cfg : LdapRealmConfig) (pw : Option String)
    (st st1 : SysState) (h : create_ldap_realm ck cfg pw st = (st1, none)) :
    st1.file = alInsert
      (if cfg.default = some true then unset_default_realm st.file else st.file)
      cfg.realm cfg := by
  unfold create_ldap_realm at h
  cases hlk : (alLookup st.file cfg.realm).isSome <;> simp only [hlk] at h
  case true => simp at h
  case false =>
    cases ck
    case false => simp at h
    case true =>
      simp only [Bool.not_true, Bool.false_eq_true, if_false, Prod.mk.injEq, and_true] at h
      rw [← h]

theorem update_success_shape (ck : Bool) (realm : String)
    (upd : LdapRealmConfigUpdater) (pw : Option String)
    (del : Option (List DeletableProperty)) (dg : Option ConfigDigest)
    (st st1 : SysState) (h : update_ldap_realm ck realm upd pw del dg st = (st1, none)) :
    ∃ c : LdapRealmConfig,
      st1.file = alInsert
        (if upd.default = some true then unset_default_realm st.file else st.file)
        realm c ∧
      c.default = (if upd.default = some true then some true else none) ∧
      (∀ s : String, upd.comment = some s → trimChars s ≠ "" → c.comment = some (trimChars s)) := by
  unfold update_ldap_realm at h
  cases hdg : detect_modification st.file dg <;> simp only [hdg] at h
  case some e => simp at h
  case none =>
    cases hlk : alLookup st.file realm <;> simp only [hlk] at h
    case none => simp at h
    case some cfg0 =>
      cases ck
      case false => simp at h
      case true =>
        simp only [Bool.not_true, Bool.false_eq_true, if_false, Prod.mk.injEq,
          and_true] at h
        refine ⟨applyUpdatePost upd
          (if upd.default = some true
            then { applyUpdatePre upd
              (match del with
                | some props => applyDelete realm cfg0 st.secrets props
                | none => (cfg0, st.secrets)).1 with default := some true }
            else { applyUpdatePre upd
              (match del with
                | some props => applyDelete realm cfg0 st.secrets props
                | none => (cfg0, st.secrets)).1 with default := none }), ?_, ?_, ?_⟩
        · rw [← h]
        · rw [applyUpdatePost_default]
          by_cases hd : upd.default = some true <;> simp [hd]
        · intro s hc hs
          rw [applyUpdatePost_comment]
          by_cases hd : upd.default = some true <;>
            simp [hd, applyUpdatePre_comment_set upd _ s hc hs]

theorem defaultIds_cons (k1 : String) (v1 : LdapRealmConfig)
    (t : List (String × LdapRealmConfig)) :
    defaultIds ((k1, v1) :: t)
      = (if v1.default = some true then [k1] else []) ++ defaultIds t := by
  by_cases h : v1.default = some true <;> simp [defaultIds, List.filter_cons, h]

theorem defaultIds_unset_default_realm (d : List (String × LdapRealmConfig)) :
    defaultIds (unset_default_realm d) = [] := by
  induction d with
  | nil => rfl
  | cons p t ih =>
    obtain ⟨k1, v1⟩ := p
    simp only [unset_default_realm, List.map_cons] at ih ⊢
    rw [defaultIds_cons]
    simpa using ih

theorem defaultIds_alInsert_true (d : List (String × LdapRealmConfig)) (k : String)
    (v : LdapRealmConfig) (hd : defaultIds d = []) (hv : v.default = some true) :
    defaultIds (alInsert d k v) = [k] := by
  induction d with
  | nil => simp [alInsert, defaultIds, List.filter_cons, hv]
  | cons p t ih =>
    obtain ⟨k1, v1⟩ := p
    rw [defaultIds_cons] at hd
    by_cases hk : k1 = k
    · rw [alInsert, if_pos hk, defaultIds_cons, if_pos hv]
      rcases List.append_eq_nil.mp hd with ⟨-, h2⟩
      simp [h2]
    · rw [alInsert, if_neg hk, defaultIds_cons]
      rcases List.append_eq_nil.mp hd with ⟨h1, h2⟩
      simp [h1, ih h2]

theorem defaultIds_alInsert_le (d : List (String × LdapRealmConfig)) (k : String)
    (v : LdapRealmConfig) (hv : v.default ≠ some true) :
    (defaultIds (alInsert d k v)).length ≤ (defaultIds d).length := by
  induction d with
  | nil => simp [alInsert, defaultIds, List.filter_cons, hv]
  | cons p t ih =>
    obtain ⟨k1, v1⟩ := p
    by_cases hk : k1 = k
    · rw [alInsert, if_pos hk, defaultIds_cons, defaultIds_cons, if_neg hv]
      simp only [List.nil_append, List.length_append]
      exact Nat.le_add_left _ _
    · rw [alInsert, if_neg hk, defaultIds_cons, defaultIds_cons]
      simp only [List.length_append]
      exact Nat.add_le_add_left ih _

theorem defaultIds_alRemove_le (d : List (String × LdapRealmConfig)) (k : String) :
    (defaultIds (alRemove d k)).length ≤ (defaultIds d).length := by
  induction d with
  | nil => simp [alRemove]
  | cons p t ih =>
    obtain ⟨k1, v1⟩ := p
    by_cases hk : k1 = k
    · rw [alRemove, if_pos hk, defaultIds_cons]
      simp only [List.length_append]
      exact Nat.le_add_left _ _
    · rw [alRemove, if_neg hk, defaultIds_cons, defaultIds_cons]
      simp only [List.length_append]
      exact Nat.add_le_add_left ih _

theorem from_value_to_pair (ty : String) (v : RawValue) (t : DomainRecord)
    (h : DomainRecord.from_value ty v = .ok t) : t.to_pair = (ty, v) := by
  unfold DomainRecord.from_value at h
  by_cases h1 : ty = "ldap"
  · rw [if_pos h1] at h
    cases h
    simp [DomainRecord.to_pair, h1]
  · rw [if_neg h1] at h
    by_cases h2 : ty = "openid"
    · rw [if_pos h2] at h
      cases h
      simp [DomainRecord.to_pair, h2]
    · rw [if_neg h2] at h
      cases h

theorem to_pair_from_value (t : DomainRecord) :
    DomainRecord.from_value t.to_pair.1 t.to_pair.2 = .ok t := by
  cases t <;> simp [DomainRecord.to_pair, DomainRecord.from_value]

theorem decodeList_keys (l : List (String × (String × RawValue)))
    (ds : List (String × DomainRecord)) (h : decodeList l = .ok ds) :
    ds.map Prod.fst = l.map Prod.fst := by
  induction l generalizing ds with
  | nil =>
    simp only [decodeList, Except.ok.injEq] at h
    rw [← h]
    rfl
  | cons p rest ih =>
    obtain ⟨id, ty, v⟩ := p
    rw [decodeList] at h
    cases hfv : DomainRecord.from_value ty v <;> rw [hfv] at h
    · cases h
    · cases hdr : decodeList rest <;> rw [hdr] at h
      · cases h
      · cases h
        simp [ih _ hdr]

theorem encodeList_decodeList (l : List (String × (String × RawValue)))
    (ds : List (String × DomainRecord)) (h : decodeList l = .ok ds) :
    encodeList ds = l := by
  induction l generalizing ds with
  | nil =>
    simp only [decodeList, Except.ok.injEq] at h
    rw [← h]
    rfl
  | cons p rest ih =>
    obtain ⟨id, ty, v⟩ := p
    rw [decodeList] at h
    cases hfv : DomainRecord.from_value ty v <;> rw [hfv] at h
    · cases h
    · cases hdr : decodeList rest <;> rw [hdr] at h
      · cases h
      · cases h
        simp [encodeList, from_value_to_pair ty v _ hfv, ih _ hdr]
        exact ih _ hdr

theorem decodeList_encodeList (ds : List (String × DomainRecord)) :
    decodeList (encodeList ds) = .ok ds := by
  induction ds with
  | nil => rfl
  | cons p rest ih =>
    obtain ⟨id, t⟩ := p
    have hfv := to_pair_from_value t
    rcases hpair : t.to_pair with ⟨ty, v⟩
    rw [hpair] at hfv
    show decodeList ((id, t.to_pair) :: encodeList rest) = .ok ((id, t) :: rest)
    rw [hpair, decodeList, hfv, ih]

theorem sectionsFromRaw_eq (l : List (String × (String × RawValue)))
    (acc : List (String × DomainRecord))
    (hnd : (l.map Prod.fst).Nodup)
    (hdis : ∀ k ∈ l.map Prod.fst, ¬ k ∈ acc.map Prod.fst) :
    sectionsFromRaw l acc = (decodeList l).map (fun ds => acc ++ ds) := by
  induction l generalizing acc with
  | nil => simp [sectionsFromRaw, decodeList, Except.map]
  | cons p rest ih =>
    obtain ⟨id, ty, v⟩ := p
    rw [sectionsFromRaw]
    cases hfv : DomainRecord.from_value ty v with
    | error e => simp [decodeList, hfv, Except.map]
    | ok t =>
      dsimp only
      have hid : ¬ id ∈ acc.map Prod.fst := hdis id (by simp)
      rw [alInsert_notMem acc id t hid]
      simp only [List.map_cons, List.nodup_cons] at hnd
      have hdis2 : ∀ k ∈ rest.map Prod.fst,
          ¬ k ∈ (acc ++ [(id, t)]).map Prod.fst := by
        intro k hk
        simp only [List.map_append, List.mem_append, List.map_cons, List.map_nil,
          List.mem_singleton]
        rintro (h1 | h2)
        · exact hdis k (by simp [hk]) h1
        · exact hnd.1 (h2 ▸ hk)
      rw [ih (acc ++ [(id, t)]) hnd.2 hdis2]
      cases hdr : decodeList rest <;>
        simp [decodeList, hfv, hdr, Except.map, List.append_assoc]

theorem sectionsToRaw_eq (l : List (String × DomainRecord))
    (acc : List (String × (String × RawValue)))
    (hnd : (l.map Prod.fst).Nodup)
    (hdis : ∀ k ∈ l.map Prod.fst, ¬ k ∈ acc.map Prod.fst) :
    sectionsToRaw l acc = acc ++ encodeList l := by
  induction l generalizing acc with
  | nil => simp [sectionsToRaw, encodeList]
  | cons p rest ih =>
    obtain ⟨id, t⟩ := p
    rw [sectionsToRaw]
    have hid : ¬ id ∈ acc.map Prod.fst := hdis id (by simp)
    rw [alInsert_notMem acc id t.to_pair hid]
    simp only [List.map_cons, List.nodup_cons] at hnd
    have hdis2 : ∀ k ∈ rest.map Prod.fst,
        ¬ k ∈ (acc ++ [(id, t.to_pair)]).map Prod.fst := by
      intro k hk
      simp only [List.map_append, List.mem_append, List.map_cons, List.map_nil,
        List.mem_singleton]
      rintro (h1 | h2)
      · exact hdis k (by simp [hk]) h1
      · exact hnd.1 (h2 ▸ hk)
    rw [ih (acc ++ [(id, t.to_pair)]) hnd.2 hdis2]
    simp [encodeList, List.append_assoc]

theorem iterList_alRemove_notmem {α : Type} (s : List (String × α)) (k : String)
    (order : List String) (h : ¬ k ∈ order) :
    iterList (alRemove s k) order = iterList s order := by
  induction order with
  | nil => rfl
  | cons id rest ih =>
    simp only [List.mem_cons] at h
    push_neg at h
    have hne : id ≠ k := fun e => h.1 e.symm
    cases hl : alLookup s id <;>
      simp [iterList, alLookup_alRemove_ne s k id hne, hl, ih h.2]

theorem delete_success_shape (realm : String) (dg : Option ConfigDigest)
    (st st1 : SysState) (h : delete_ldap_realm realm dg st = (st1, none)) :
    st1.file = alRemove st.file realm := by
  unfold delete_ldap_realm at h
  cases hdg : detect_modification st.file dg <;> simp only [hdg] at h
  case some e => simp at h
  case none =>
    cases hlk : (alLookup st.file realm).isNone <;> simp only [hlk] at h
    case true => simp at h
    case false =>
      simp only [Bool.false_eq_true, if_false, Prod.mk.injEq, and_true] at h
      rw [← h]

/-!
Claim theorems.
-/

/-- C1: for every `Login` or `SecondFactorChallenge` and every response body
whose envelope carries a username different from the stored userid, the
`response` method returns the username-mismatch error (hence never an
`Authentication` or a `SecondFactorChallenge`), for every possible ticket
parser — i.e. regardless of whether the ticket would otherwise parse and
validate. -/
theorem response_rejects_username_mismatch
    (ptr : String → Except String TicketResponse)
    (pt : String → Except String Ticket)
    (l : Login) (c : SecondFactorChallenge) (body : ApiResponse)
    (d : CreateTicketResponse) (hdata : body.data = some d) :
    (d.username ≠ l.userid →
      Login.response ptr l body
        = .error "ticket response contained unexpected userid") ∧
    (d.username ≠ c.userid →
      SecondFactorChallenge.response pt c body
        = .error "ticket response contained unexpected userid") := by
  refine ⟨fun h => ?_, fun h => ?_⟩ <;>
    simp [Login.response, SecondFactorChallenge.response, hdata, h]

/-- C1 witness: a concrete mismatching envelope is rejected. -/
theorem response_rejects_username_mismatch_witness :
    Login.response (fun _ => .error "unused") (Login.new "https://host" "user@pam" "pw")
      (ApiResponse.mk (some (CreateTicketResponse.mk "other@pam" (some "tk") (some "csrf") none)))
      = .error "ticket response contained unexpected userid" :=
  (response_rejects_username_mismatch (fun _ => .error "unused")
    (fun _ => .error "unused") (Login.new "https://host" "user@pam" "pw")
    (SecondFactorChallenge.mk "https://host" false "user@pam" "tk"
      (TfaChallenge.mk false false [] none))
    (ApiResponse.mk (some (CreateTicketResponse.mk "other@pam" (some "tk") (some "csrf") none)))
    (CreateTicketResponse.mk "other@pam" (some "tk") (some "csrf") none) rfl).1
    (by decide)

/-- C9: each `respond_<method>` fails with `TfaError::Unavailable` exactly
when the corresponding availability flag/predicate of the stored challenge
is not set, and otherwise builds the request via `respond_raw` with the
method tag and a colon prefixed to the code. -/
theorem respond_methods_availability (c : SecondFactorChallenge) (code : String) :
    (c.respond_totp code = .error .unavailable ↔ c.challenge.totp = false) ∧
    (c.challenge.totp = true →
      c.respond_totp code = .ok (c.respond_raw ("totp:" ++ code))) ∧
    (c.respond_yubico code = .error .unavailable ↔ c.challenge.yubico = false) ∧
    (c.challenge.yubico = true →
      c.respond_yubico code = .ok (c.respond_raw ("yubico:" ++ code))) ∧
    (c.respond_recovery code = .error .unavailable ↔
      c.challenge.recoveryAvailable = false) ∧
    (c.challenge.recoveryAvailable = true →
      c.respond_recovery code = .ok (c.respond_raw ("recovery:" ++ code))) := by
  unfold SecondFactorChallenge.respond_totp SecondFactorChallenge.respond_yubico
    SecondFactorChallenge.respond_recovery
  cases h1 : c.challenge.totp <;> cases h2 : c.challenge.yubico <;>
    cases h3 : c.challenge.recoveryAvailable <;> simp_all

/-- C9 witness: a concrete challenge offering only TOTP accepts
`respond_totp` and builds the `totp:`-prefixed request, while `respond_totp`
on a challenge without TOTP is unavailable. -/
theorem respond_methods_availability_witness :
    (SecondFactorChallenge.mk "https://host" false "user@pam" "tk"
        (TfaChallenge.mk true false [] none)).respond_totp "123456"
      = .ok ((SecondFactorChallenge.mk "https://host" false "user@pam" "tk"
        (TfaChallenge.mk true false [] none)).respond_raw ("totp:" ++ "123456")) :=
  (respond_methods_availability
    (SecondFactorChallenge.mk "https://host" false "user@pam" "tk"
      (TfaChallenge.mk true false [] none)) "123456").2.1 rfl

/-- C10 counterexample: `set_url` stores its argument without stripping
trailing slashes, so after `set_url` the request URL is not the stored
`api_url` with trailing slashes stripped followed by the ticket path — the
claimed invariant fails for sequences containing `set_url`. -/
theorem set_url_request_not_normalized :
    ¬ ((Login.new "https://host" "user" "pw").set_url "https://host/").request.url
        = normalize_url (((Login.new "https://host" "user" "pw").set_url
            "https://host/").api_url)
          ++ "/api2/json/access/ticket" := by
  decide

/-- C10 amended: trailing slashes are stripped once at construction
(`new` / `renew_ticket`), `pve_compatibility` preserves the stored URL, and
every built request URL is exactly the stored `api_url` followed by
`/api2/json/access/ticket`; `set_url`, however, stores its argument verbatim
without normalizing, so after `set_url u` the request URL is
`u ++ "/api2/json/access/ticket"` even if `u` has trailing slashes. -/
theorem request_url_normalized_at_construction
    (api_url userid password u : String) (t : Ticket) (b : Bool) (l : Login) :
    (Login.new api_url userid password).request.url
        = normalize_url api_url ++ "/api2/json/access/ticket" ∧
    (Login.renew_ticket api_url t).request.url
        = normalize_url api_url ++ "/api2/json/access/ticket" ∧
    ((Login.new api_url userid password).pve_compatibility b).request.url
        = normalize_url api_url ++ "/api2/json/access/ticket" ∧
    (l.pve_compatibility b).api_url = l.api_url ∧
    (l.set_url u).request.url = u ++ "/api2/json/access/ticket" :=
  ⟨rfl, rfl, rfl, rfl, rfl⟩

/-- C3: an update or delete supplying an expected digest different from the
digest of the current on-disk configuration fails with the conflict error
and leaves the configuration state unchanged (no write occurs). -/
theorem digest_mismatch_conflict (ck : Bool) (realm : String)
    (upd : LdapRealmConfigUpdater) (pw : Option String)
    (del : Option (List DeletableProperty)) (d0 : ConfigDigest) (st : SysState)
    (hne : d0 ≠ st.file) :
    update_ldap_realm ck realm upd pw del (some d0) st = (st, some .conflict) ∧
    delete_ldap_realm realm (some d0) st = (st, some .conflict) := by
  constructor <;>
    simp [update_ldap_realm, delete_ldap_realm, detect_modification, hne]

/-- C3 witness: a concrete stale digest yields the conflict error with the
state untouched. -/
theorem digest_mismatch_conflict_witness :
    update_ldap_realm true "ldap1" emptyUpdater none none
        (some [("ldap1", sampleRealm)]) (SysState.mk [] [])
      = (SysState.mk [] [], some ApiError.conflict) :=
  (digest_mismatch_conflict true "ldap1" emptyUpdater none none
    [("ldap1", sampleRealm)] (SysState.mk [] []) (by decide)).1

/-- C6: a successful update whose payload does not set `default = Some(true)`
(absent or `Some(false)`) leaves the stored record with its default flag
cleared to `None`, even when `Default` is not in the delete list. -/
theorem update_clears_default_flag (ck : Bool) (realm : String)
    (upd : LdapRealmConfigUpdater) (pw : Option String)
    (del : Option (List DeletableProperty)) (dg : Option ConfigDigest)
    (st st1 : SysState) (hne : upd.default ≠ some true)
    (hsucc : update_ldap_realm ck realm upd pw del dg st = (st1, none)) :
    ∃ c, alLookup st1.file realm = some c ∧ c.default = none := by
  obtain ⟨c, hfile, hdef, -⟩ :=
    update_success_shape ck realm upd pw del dg st st1 hsucc
  rw [if_neg hne] at hfile hdef
  refine ⟨c, ?_, hdef⟩
  rw [hfile]
  exact alLookup_alInsert_self _ _ _

/-- C6 witness: an update touching no field at all silently removes the
realm's default status. -/
theorem update_clears_default_flag_witness :
    ∃ c, alLookup (update_ldap_realm true "ldap1" emptyUpdater none none none
        (SysState.mk [("ldap1", sampleRealmDefault)] [])).1.file "ldap1"
        = some c ∧ c.default = none :=
  update_clears_default_flag true "ldap1" emptyUpdater none none none
    (SysState.mk [("ldap1", sampleRealmDefault)] [])
    (update_ldap_realm true "ldap1" emptyUpdater none none none
      (SysState.mk [("ldap1", sampleRealmDefault)] [])).1
    (by decide) (by decide)

/-- C5 counterexample: with `Comment` in the delete list and a new comment
value in the update payload of the same call, the final stored record
carries the new value — the field does not end up cleared, contradicting the
claimed delete-list precedence. -/
theorem comment_in_delete_list_not_cleared :
    (alLookup (update_ldap_realm true "ldap1"
        { emptyUpdater with comment := some "new text" } none
        (some [DeletableProperty.comment]) none
        (SysState.mk [("ldap1", sampleRealm)] [])).1.file "ldap1").map
        LdapRealmConfig.comment = some (some "new text") ∧
    ¬ (alLookup (update_ldap_realm true "ldap1"
        { emptyUpdater with comment := some "new text" } none
        (some [DeletableProperty.comment]) none
        (SysState.mk [("ldap1", sampleRealm)] [])).1.file "ldap1").map
        LdapRealmConfig.comment = some none := by
  constructor <;> decide

/-- C5 amended: the delete list is applied first and newly supplied values
are applied afterwards and override it, so a field present in both the
delete list and the update payload ends up with the newly supplied value,
not cleared: a successful update supplying a comment whose trimmed text is
nonempty stores that trimmed comment even when `Comment` is in the delete
list (the comment is cleared only when the supplied value trims to empty). -/
theorem update_comment_overrides_delete_list (ck : Bool) (realm : String)
    (upd : LdapRealmConfigUpdater) (pw : Option String)
    (props : List DeletableProperty) (dg : Option ConfigDigest)
    (st st1 : SysState) (s : String)
    (_hmem : DeletableProperty.comment ∈ props)
    (hc : upd.comment = some s) (hs : trimChars s ≠ "")
    (hsucc : update_ldap_realm ck realm upd pw (some props) dg st = (st1, none)) :
    ∃ c, alLookup st1.file realm = some c ∧ c.comment = some (trimChars s) := by
  obtain ⟨c, hfile, -, hcom⟩ :=
    update_success_shape ck realm upd pw (some props) dg st st1 hsucc
  refine ⟨c, ?_, hcom s hc hs⟩
  rw [hfile]
  exact alLookup_alInsert_self _ _ _

/-- C5 amended witness: the concrete scenario of the counterexample ends
with the new trimmed comment stored. -/
theorem update_comment_overrides_delete_list_witness :
    ∃ c, alLookup (update_ldap_realm true "ldap1"
        { emptyUpdater with comment := some "new text" } none
        (some [DeletableProperty.comment]) none
        (SysState.mk [("ldap1", sampleRealm)] [])).1.file "ldap1" = some c ∧
      c.comment = some (trimChars "new text") :=
  update_comment_overrides_delete_list true "ldap1"
    { emptyUpdater with comment := some "new text" } none
    [DeletableProperty.comment] none
    (SysState.mk [("ldap1", sampleRealm)] [])
    (update_ldap_realm true "ldap1"
      { emptyUpdater with comment := some "new text" } none
      (some [DeletableProperty.comment]) none
      (SysState.mk [("ldap1", sampleRealm)] [])).1
    "new text" (by decide) rfl (by decide) (by decide)

/-- C4 counterexample: a failed connection check on an update whose delete
list contains `Password` has already removed the stored bind password — the
operation errors, yet the external secret store was modified. -/
theorem conn_check_failure_modified_secret_store :
    (update_ldap_realm false "ldap1" emptyUpdater none
        (some [DeletableProperty.password]) none
        (SysState.mk [("ldap1", sampleRealm)] [("ldap1", "bindpw")])).2
      = some (ApiError.connection "connection check failed") ∧
    (update_ldap_realm false "ldap1" emptyUpdater none
        (some [DeletableProperty.password]) none
        (SysState.mk [("ldap1", sampleRealm)] [("ldap1", "bindpw")])).1.secrets
      = [] := by
  constructor <;> decide

/-- C4 amended: a failed connection check aborts create and update with an
error and without writing the configuration file, and no bind password is
stored by the failed operation: create leaves the state entirely unchanged,
and update leaves the file unchanged while its secret store only ever
shrinks (a `Password` entry in the delete list removes the updated realm's
stored bind password before the check runs); entries of other realms are
untouched. -/
theorem conn_check_failure_no_partial_write (cfg : LdapRealmConfig)
    (pw : Option String) (realm : String) (upd : LdapRealmConfigUpdater)
    (del : Option (List DeletableProperty)) (dg : Option ConfigDigest)
    (st : SysState) :
    (create_ldap_realm false cfg pw st).1 = st ∧
    (create_ldap_realm false cfg pw st).2 ≠ none ∧
    (update_ldap_realm false realm upd pw del dg st).1.file = st.file ∧
    (update_ldap_realm false realm upd pw del dg st).2 ≠ none ∧
    ((update_ldap_realm false realm upd pw del dg st).1.secrets).Sublist
      st.secrets ∧
    (∀ k, k ≠ realm →
      alLookup (update_ldap_realm false realm upd pw del dg st).1.secrets k
        = alLookup st.secrets k) := by
  refine ⟨?_, ?_, ?_, ?_, ?_, ?_⟩
  · unfold create_ldap_realm
    cases hlk : (alLookup st.file cfg.realm).isSome <;> simp [hlk]
  · unfold create_ldap_realm
    cases hlk : (alLookup st.file cfg.realm).isSome <;> simp [hlk]
  · unfold update_ldap_realm
    cases hdg : detect_modification st.file dg
    case some e => simp
    case none =>
      cases hlk : alLookup st.file realm
      case none => simp
      case some cfg0 => simp
  · unfold update_ldap_realm
    cases hdg : detect_modification st.file dg
    case some e => simp
    case none =>
      cases hlk : alLookup st.file realm
      case none => simp
      case some cfg0 => simp
  · unfold update_ldap_realm
    cases hdg : detect_modification st.file dg
    case some e => simp
    case none =>
      cases hlk : alLookup st.file realm
      case none => simp
      case some cfg0 =>
        simp only [Bool.not_false, if_true]
        cases del
        case none => simp
        case some props =>
          simpa using applyDelete_secrets_sublist realm cfg0 st.secrets props
  · intro k hk
    unfold update_ldap_realm
    cases hdg : detect_modification st.file dg
    case some e => simp
    case none =>
      cases hlk : alLookup st.file realm
      case none => simp
      case some cfg0 =>
        simp only [Bool.not_false, if_true]
        cases del
        case none => simp
        case some props =>
          simpa using applyDelete_secrets_other realm cfg0 st.secrets props k hk

/-- C4 amended witness: a failed check on a delete-less update leaves a
concrete state fully unchanged, and the other-realm secret is untouched in
the counterexample scenario. -/
theorem conn_check_failure_no_partial_write_witness :
    alLookup (update_ldap_realm false "ldap1" emptyUpdater none
        (some [DeletableProperty.password]) none
        (SysState.mk [("ldap1", sampleRealm)]
          [("ldap1", "bindpw"), ("other", "pw2")])).1.secrets "other"
      = alLookup [("ldap1", "bindpw"), ("other", "pw2")] "other" :=
  (conn_check_failure_no_partial_write sampleRealm none "ldap1" emptyUpdater
    (some [DeletableProperty.password]) none
    (SysState.mk [("ldap1", sampleRealm)]
      [("ldap1", "bindpw"), ("other", "pw2")])).2.2.2.2.2 "other" (by decide)

/-- C2: a successful create or update that sets `default = true` on a realm
leaves exactly that realm as the single default realm afterward (every other
record's flag cleared in the same pass), and every successful mutating
operation (create, update, delete) preserves the at-most-one-default
invariant. -/
theorem at_most_one_default_realm (ck : Bool) (cfg : LdapRealmConfig)
    (pw : Option String) (realm : String) (upd : LdapRealmConfigUpdater)
    (del : Option (List DeletableProperty)) (dg : Option ConfigDigest)
    (st st1 : SysState) :
    (cfg.default = some true → create_ldap_realm ck cfg pw st = (st1, none) →
      defaultIds st1.file = [cfg.realm]) ∧
    (upd.default = some true →
      update_ldap_realm ck realm upd pw del dg st = (st1, none) →
      defaultIds st1.file = [realm]) ∧
    ((defaultIds st.file).length ≤ 1 →
      (create_ldap_realm ck cfg pw st = (st1, none) ∨
        update_ldap_realm ck realm upd pw del dg st = (st1, none) ∨
        delete_ldap_realm realm dg st = (st1, none)) →
      (defaultIds st1.file).length ≤ 1) := by
  refine ⟨?_, ?_, ?_⟩
  · intro hd hs
    have hfile := create_success_shape ck cfg pw st st1 hs
    rw [if_pos hd] at hfile
    rw [hfile]
    exact defaultIds_alInsert_true _ _ _ (defaultIds_unset_default_realm _) hd
  · intro hd hs
    obtain ⟨c, hfile, hdef, -⟩ :=
      update_success_shape ck realm upd pw del dg st st1 hs
    rw [if_pos hd] at hfile hdef
    rw [hfile]
    exact defaultIds_alInsert_true _ _ _ (defaultIds_unset_default_realm _) hdef
  · intro hle hs
    rcases hs with hs | hs | hs
    · have hfile := create_success_shape ck cfg pw st st1 hs
      by_cases hd : cfg.default = some true
      · rw [if_pos hd] at hfile
        rw [hfile,
          defaultIds_alInsert_true _ _ _ (defaultIds_unset_default_realm _) hd]
        simp
      · rw [if_neg hd] at hfile
        rw [hfile]
        exact (defaultIds_alInsert_le _ _ _ hd).trans hle
    · obtain ⟨c, hfile, hdef, -⟩ :=
        update_success_shape ck realm upd pw del dg st st1 hs
      by_cases hd : upd.default = some true
      · rw [if_pos hd] at hfile hdef
        rw [hfile,
          defaultIds_alInsert_true _ _ _ (defaultIds_unset_default_realm _) hdef]
        simp
      · rw [if_neg hd] at hfile hdef
        rw [hfile]
        have hcne : c.default ≠ some true := by rw [hdef]; simp
        exact (defaultIds_alInsert_le _ _ _ hcne).trans hle
    · have hfile := delete_success_shape realm dg st st1 hs
      rw [hfile]
      exact (defaultIds_alRemove_le _ _).trans hle

/-- C2 witness: creating `ldap2` with `default = true` while `ldap1` is the
current default leaves exactly `ldap2` as the default realm. -/
theorem at_most_one_default_realm_witness :
    defaultIds (create_ldap_realm true sampleRealm2 none
        (SysState.mk [("ldap1", sampleRealmDefault)] [])).1.file = ["ldap2"] :=
  (at_most_one_default_realm true sampleRealm2 none "ldap1" emptyUpdater none
    none (SysState.mk [("ldap1", sampleRealmDefault)] [])
    (create_ldap_realm true sampleRealm2 none
      (SysState.mk [("ldap1", sampleRealmDefault)] [])).1).1
    (by decide) (by decide)

/-- C7: for every raw section data with unique ids that the typed conversion
accepts, converting the typed result back yields exactly the original raw
data (same order list), and re-parsing that output returns the same typed
data — the typed-to-raw and raw-to-typed conversions are mutually inverse on
parse results. -/
theorem section_config_roundtrip (data : RawSectionConfigData)
    (d : SectionConfigData)
    (hnd : (data.sections.map Prod.fst).Nodup)
    (hp : tryFromRaw data = .ok d) :
    tryIntoRaw d = data ∧ d.order = data.order ∧
    tryFromRaw (tryIntoRaw d) = .ok d := by
  have hp0 := hp
  have hfe := sectionsFromRaw_eq data.sections [] hnd (by simp)
  unfold tryFromRaw at hp
  rw [hfe] at hp
  cases hdl : decodeList data.sections <;> rw [hdl] at hp <;>
    simp only [Except.map] at hp
  case error e => cases hp
  case ok ds =>
    simp only [List.nil_append] at hp
    cases hp
    have hkeys := decodeList_keys _ _ hdl
    have hnd2 : (ds.map Prod.fst).Nodup := by rw [hkeys]; exact hnd
    have hto : tryIntoRaw (SectionConfigData.mk ds data.order) = data := by
      unfold tryIntoRaw
      have hsr := sectionsToRaw_eq ds [] hnd2 (by simp)
      simp only at hsr ⊢
      rw [hsr, List.nil_append, encodeList_decodeList _ _ hdl]
    exact ⟨hto, rfl, by rw [hto]; exact hp0⟩

/-- C7 witness: a concrete two-section raw configuration round-trips. -/
theorem section_config_roundtrip_witness :
    tryIntoRaw (SectionConfigData.mk
        [("r1", DomainRecord.ldap [("server", "s1")]),
          ("r2", DomainRecord.openid [])] ["r1", "r2"])
      = RawSectionConfigData.mk
        [("r1", ("ldap", [("server", "s1")])), ("r2", ("openid", []))]
        ["r1", "r2"] ∧
    (SectionConfigData.mk
        [("r1", DomainRecord.ldap [("server", "s1")]),
          ("r2", DomainRecord.openid [])] ["r1", "r2"]).order
      = (RawSectionConfigData.mk
        [("r1", ("ldap", [("server", "s1")])), ("r2", ("openid", []))]
        ["r1", "r2"]).order ∧
    tryFromRaw (tryIntoRaw (SectionConfigData.mk
        [("r1", DomainRecord.ldap [("server", "s1")]),
          ("r2", DomainRecord.openid [])] ["r1", "r2"]))
      = .ok (SectionConfigData.mk
        [("r1", DomainRecord.ldap [("server", "s1")]),
          ("r2", DomainRecord.openid [])] ["r1", "r2"]) :=
  section_config_roundtrip
    (RawSectionConfigData.mk
      [("r1", ("ldap", [("server", "s1")])), ("r2", ("openid", []))]
      ["r1", "r2"])
    (SectionConfigData.mk
      [("r1", DomainRecord.ldap [("server", "s1")]),
        ("r2", DomainRecord.openid [])] ["r1", "r2"])
    (by decide) (by rfl)

/-- C8: iterating section data yields exactly the pairs whose id occurs in
the order list and is present in the sections map, in order-list order,
silently skipping order ids absent from the map — iteration is total, and
with unique order ids the consuming iterator agrees with the borrowing
one. -/
theorem section_iteration_skips_missing {α : Type} (s : List (String × α))
    (order : List String) :
    iterList s order
        = order.filterMap (fun id => (alLookup s id).map (fun v => (id, v))) ∧
    (order.Nodup → intoIterList s order = iterList s order) := by
  constructor
  · induction order with
    | nil => rfl
    | cons id rest ih =>
      cases h : alLookup s id <;>
        simp [iterList, h, ih, List.filterMap_cons]
  · induction order generalizing s with
    | nil => intro _; rfl
    | cons id rest ih =>
      intro hnd
      rw [List.nodup_cons] at hnd
      cases h : alLookup s id with
      | none => simp only [intoIterList, iterList, h]; exact ih s hnd.2
      | some v =>
        simp only [intoIterList, iterList, h, List.cons.injEq, true_and]
        rw [ih (alRemove s id) hnd.2]
        exact iterList_alRemove_notmem s id rest hnd.1

/-- C8 witness: with order id `b` missing from the map, both iterators
yield the present pairs in order and skip `b`. -/
theorem section_iteration_skips_missing_witness :
    intoIterList [("a", (1 : Nat)), ("c", 3)] ["a", "b", "c"]
      = iterList [("a", (1 : Nat)), ("c", 3)] ["a", "b", "c"] :=
  (section_iteration_skips_missing [("a", (1 : Nat)), ("c", 3)]
    ["a", "b", "c"]).2 (by decide)

end PDM
